import Mathlib

/-!
Shallow embedding of the watch-together room code: the `useWebRTC` hook
(signaling, peer-connection registry, offer/answer negotiation, teardown)
and the `Room` page (playback sync protocol, late-join handling, dual
media mode), together with theorems checking the specification's claims
against the embedded code.

Conventions of the embedding:
* JS `Map<string, RTCPeerConnection>` is an association list with
  `Map.set`/`Map.get` semantics (`mapSet`, `mapGet`).
* Playback times are rationals; every time constant appearing in the code
  and in the claims (0.3, 10.0, 10.2, 10.5, 42.0) is exactly representable
  and the drift comparison has the same outcome as over JS doubles at the
  inputs exercised here.
* External calls that the code performs without a `try`/`catch` are run
  against an explicit fault model (`FaultModel`); `noThrowFaults` is the
  behaviour of the actual web platform, where `MediaStreamTrack.stop()`
  and `RTCPeerConnection.close()` never throw.
* An event handler's outcome is its post state, the list of observable
  effects it emitted before returning, and whether an uncaught exception
  escaped it (`StepResult`).
-/

/-- A media track handle (`MediaStreamTrack`), identified by an id. -/
abbrev Track := Nat

/-- Opaque session description blob (`RTCSessionDescriptionInit`). -/
abbrev Sdp := String

/-- Opaque ICE candidate blob (`RTCIceCandidateInit`). -/
abbrev IceCandidate := String

/-- A `MediaStream`: its tracks, in `getTracks()` order. -/
structure MediaStream where
  tracks : List Track
deriving DecidableEq

/-- The five actions of `control` signals. -/
inductive ControlAction where
  | play
  | pause
  | seek
  | sync
  | fileUrl
deriving DecidableEq

/-- Payload of a `control` signal: optional `time` and `url` fields. -/
structure CtrlPayload where
  time : Option ℚ
  url : Option String
deriving DecidableEq

/-- The tagged union of signal kinds (`SignalMessage` in `useWebRTC`),
without the routing fields, which live in `Signal`. -/
inductive SignalType where
  | offer (sdp : Sdp)
  | answer (sdp : Sdp)
  | iceCandidate (candidate : Option IceCandidate)
  | hostStopped
  | hostStarted
  | viewerReady
  | control (action : ControlAction) (payload : CtrlPayload)
deriving DecidableEq

/-- A signal on the room's broadcast bus: a kind, the sender identity, and
an optional addressee (`to` absent means broadcast). -/
structure Signal where
  type : SignalType
  «from» : String
  «to» : Option String
deriving DecidableEq

/-- Per-participant immutable configuration: `peerId` and `isHost`. -/
structure Config where
  peerId : String
  isHost : Bool
deriving DecidableEq

/-- One `RTCPeerConnection` as this code uses it: the remote peer it was
created for, the descriptions set on it, the candidates successfully added
to it, and the tracks the host attached.  `id` is the allocation identity:
each `createPeerConnection` call constructs a fresh connection object with
a fresh id taken from `HookState.nextPcId`. -/
structure PeerConnection where
  id : Nat
  remotePeerId : String
  remoteDesc : Option Sdp
  localDesc : Option Sdp
  candidates : List IceCandidate
  tracks : List Track
deriving DecidableEq

/-- Mutable state owned by the `useWebRTC` hook: the peer-connection
registry (`peerConnections.current`, a JS `Map` keyed by remote peer id),
the local capture stream reference (`localStreamRef.current`), and the
fresh-id counter recording how many transport sessions have been allocated
so far. -/
structure HookState where
  peerConnections : List (String × PeerConnection)
  localStream : Option MediaStream
  nextPcId : Nat
deriving DecidableEq

/-- The host's dual media mode (`streamMode` state in `Room`). -/
inductive StreamMode where
  | screen
  | file
deriving DecidableEq

/-- An HTML media element as `Room` uses it.  `srcObject` is abstracted to
whether a stream object is attached. -/
structure VideoEl where
  currentTime : ℚ
  paused : Bool
  src : String
  srcObject : Bool
  muted : Bool
  controls : Bool
deriving DecidableEq

/-- React state of the `Room` page.  `copied` and `isUploading` are
UI-only and never feed back into the protocol, so they are omitted.
`localVideo` and `video` are the two media-element refs (both elements are
always rendered, but a ref is still an `Option` in the code). -/
structure RoomState where
  isSharing : Bool
  hasStream : Bool
  streamMode : StreamMode
  videoFileUrl : Option String
  localVideo : Option VideoEl
  video : Option VideoEl
deriving DecidableEq

/-- Combined state of one participant: hook state plus page state. -/
structure SysState where
  hook : HookState
  room : RoomState
deriving DecidableEq

/-- Fault model for the external calls the code performs: whether
`track.stop()` or `pc.close()` throws (the code has no `try`/`catch`
around either), and whether `addIceCandidate` rejects (which the code does
catch). -/
structure FaultModel where
  trackStopThrows : Track → Bool
  pcCloseThrows : Nat → Bool
  addIceCandidateFails : IceCandidate → Bool

/-- The behaviour of the actual web platform: per the Media Capture and
WebRTC specifications, `MediaStreamTrack.stop()` and
`RTCPeerConnection.close()` never throw (both are no-ops on already
stopped/closed objects); `addIceCandidate` is taken as succeeding. -/
def noThrowFaults : FaultModel :=
  ⟨fun _ => false, fun _ => false, fun _ => false⟩

/-- Observable side effects of one handler invocation. -/
inductive Effect where
  | send (s : Signal)
  | trackStop (t : Track)
  | pcClose (id : Nat)
deriving DecidableEq

/-- Outcome of one event-handler invocation: post state, effects emitted
before returning (or before an uncaught exception), and whether an
uncaught exception escaped the handler. -/
structure StepResult where
  state : SysState
  effects : List Effect
  threw : Bool
deriving DecidableEq

/-- Outcome of `stopSharing` (same shape, over the hook state only). -/
structure StopResult where
  state : HookState
  effects : List Effect
  threw : Bool
deriving DecidableEq

/-- JS truthiness of an optional string: `undefined` and `""` are falsy. -/
def jsTruthyStr : Option String → Bool
  | none => false
  | some s => !(s == "")

/-- `Map.get` on the registry. -/
def mapGet (m : List (String × PeerConnection)) (k : String) : Option PeerConnection :=
  (m.find? fun p => p.1 == k).map Prod.snd

/-- `Map.set` on the registry: replaces the value in place when the key is
present (JS `Map.set` keeps the original insertion position), appends a
new entry otherwise. -/
def mapSet (m : List (String × PeerConnection)) (k : String) (v : PeerConnection) :
    List (String × PeerConnection) :=
  if m.any fun p => p.1 == k then
    m.map fun p => if p.1 == k then (k, v) else p
  else
    m ++ [(k, v)]

/-- `createPeerConnection` from `useWebRTC`: constructs a fresh
`RTCPeerConnection` (fresh allocation id) and writes it into the registry
with `peerConnections.current.set(remotePeerId, pc)`.  The `onicecandidate`
and `ontrack` handlers it installs fire as separate events later
(`Event.iceCandidateGenerated`, `Event.trackReceived`). -/
def createPeerConnection (hook : HookState) (remotePeerId : String) :
    PeerConnection × HookState :=
  let pc : PeerConnection :=
    { id := hook.nextPcId, remotePeerId := remotePeerId, remoteDesc := none,
      localDesc := none, candidates := [], tracks := [] }
  (pc, { hook with
          peerConnections := mapSet hook.peerConnections remotePeerId pc,
          nextPcId := hook.nextPcId + 1 })

/-- `sendOfferToViewer` from `useWebRTC`: returns without effect when the
local stream reference is null; otherwise creates a peer connection for
the viewer, attaches every local track (sender parameter and codec
preferences are best-effort and caught in the source, with no further
state effect), creates and sets a local offer description, and publishes
the offer addressed to the viewer. -/
def sendOfferToViewer (peerId : String) (hook : HookState) (viewerId : String) :
    HookState × List Effect :=
  match hook.localStream with
  | none => (hook, [])
  | some stream =>
    let c := createPeerConnection hook viewerId
    let offerSdp := "offer:" ++ toString c.1.id
    let pc := { c.1 with tracks := stream.tracks, localDesc := some offerSdp }
    ({ c.2 with peerConnections := mapSet c.2.peerConnections viewerId pc },
     [Effect.send ⟨SignalType.offer offerSdp, peerId, some viewerId⟩])

/-- `localStreamRef.current?.getTracks().forEach((t) => t.stop())` under
the fault model: stops tracks in order, returning the stop effects emitted
and whether a `stop()` call threw (aborting the iteration). -/
def stopTracks (fm : FaultModel) : List Track → List Effect × Bool
  | [] => ([], false)
  | t :: ts =>
    if fm.trackStopThrows t then ([], true)
    else
      let r := stopTracks fm ts
      (Effect.trackStop t :: r.1, r.2)

/-- `peerConnections.current.forEach((pc) => pc.close())` under the fault
model: closes connections in order, returning the close effects emitted
and whether a `close()` call threw (aborting the iteration). -/
def closePcs (fm : FaultModel) : List (String × PeerConnection) → List Effect × Bool
  | [] => ([], false)
  | e :: rest =>
    if fm.pcCloseThrows e.2.id then ([], true)
    else
      let r := closePcs fm rest
      (Effect.pcClose e.2.id :: r.1, r.2)

/-- `localStreamRef.current?.getTracks()`: the tracks of the held stream,
or nothing when the ref is null. -/
def streamTracks : Option MediaStream → List Track
  | none => []
  | some s => s.tracks

/-- `stopSharing` from `useWebRTC`, statement by statement: stop all local
tracks, null the stream ref, close every registered peer connection, clear
the registry, then broadcast `host-stopped`.  None of these calls is
guarded, so a throwing release aborts the remaining statements; mutations
already performed persist. -/
def stopSharing (fm : FaultModel) (peerId : String) (hook : HookState) : StopResult :=
  let tr := stopTracks fm (streamTracks hook.localStream)
  if tr.2 then ⟨hook, tr.1, true⟩
  else
    let hook' := { hook with localStream := none }
    let cl := closePcs fm hook'.peerConnections
    if cl.2 then ⟨hook', tr.1 ++ cl.1, true⟩
    else
      ⟨{ hook' with peerConnections := [] },
       tr.1 ++ cl.1 ++ [Effect.send ⟨SignalType.hostStopped, peerId, none⟩],
       false⟩

/-- The `onViewerReadyRef` handler installed by `Room`'s effect: when the
host is sharing a file (`streamMode === "file" && isSharing &&
videoFileUrl`, with JS truthiness on the url), unicast `file-url`, then
`seek` with the local element's current time (the source's
`localVideoRef.current?.currentTime || 0`; for a present element this
equals its `currentTime`, since `0 || 0` is `0`), then `play` if the local
element exists and is not paused — all addressed to the one viewer. -/
def onViewerReadyHandler (peerId : String) (room : RoomState) (viewerId : String) :
    List Signal :=
  match room.videoFileUrl with
  | none => []
  | some url =>
    if room.streamMode = StreamMode.file ∧ room.isSharing = true ∧ url ≠ "" then
      let t : ℚ := match room.localVideo with
        | none => 0
        | some v => v.currentTime
      [⟨SignalType.control ControlAction.fileUrl ⟨none, some url⟩, peerId, some viewerId⟩,
       ⟨SignalType.control ControlAction.seek ⟨some t, none⟩, peerId, some viewerId⟩]
      ++ (match room.localVideo with
          | none => []
          | some v =>
            if v.paused = false then
              [⟨SignalType.control ControlAction.play ⟨none, none⟩, peerId, some viewerId⟩]
            else [])
    else []

/-- `handleControlReceived` from `Room`: ignores everything when the local
role is host or the viewer video ref is null; otherwise applies the
control action to the viewer element.  `seek` and `sync` with an absent
`time` are outside the protocol (the host always includes `time` there)
and are modelled as no-ops. -/
def handleControlReceived (isHost : Bool) (room : RoomState)
    (action : ControlAction) (payload : CtrlPayload) : RoomState :=
  if isHost = true then room
  else
    match room.video with
    | none => room
    | some vid =>
      match action with
      | ControlAction.fileUrl =>
        { room with
          streamMode := StreamMode.file,
          videoFileUrl := payload.url,
          hasStream := true,
          video := some { vid with
            srcObject := false, src := payload.url.getD "",
            muted := false, controls := false } }
      | ControlAction.play => { room with video := some { vid with paused := false } }
      | ControlAction.pause => { room with video := some { vid with paused := true } }
      | ControlAction.seek =>
        match payload.time with
        | none => room
        | some t => { room with video := some { vid with currentTime := t } }
      | ControlAction.sync =>
        match payload.time with
        | none => room
        | some s =>
          if |vid.currentTime - s| > (3 : ℚ) / 10 ∧ vid.paused = false then
            { room with video := some { vid with currentTime := s } }
          else room

/-- Room-state part of `handleStopShare`: clear the sharing flags and the
file url, reset both media elements (the sync interval it also clears is
real time and outside the state model). -/
def roomAfterStop (room : RoomState) : RoomState :=
  { room with
    isSharing := false, hasStream := false, videoFileUrl := none,
    localVideo := room.localVideo.map fun v : VideoEl =>
      { v with srcObject := false, src := "", controls := false, muted := true },
    video := room.video.map fun v : VideoEl => { v with srcObject := false, src := "" } }

/-- `handleSignal` from `useWebRTC`, with the `Room` callbacks it invokes
(`onViewerReady`, `onControlReceived`, `onHostStopped`) expanded to the
handlers `Room` installs.  The first two guards are the source's echo
suppression (`payload.from === peerId`) and addressed filtering
(`payload.to && payload.to !== peerId`, with JS truthiness on `to`). -/
def handleSignalStep (fm : FaultModel) (cfg : Config) (st : SysState) (sig : Signal) :
    StepResult :=
  if sig.«from» = cfg.peerId then ⟨st, [], false⟩
  else if jsTruthyStr sig.«to» = true ∧ sig.«to» ≠ some cfg.peerId then ⟨st, [], false⟩
  else
    match sig.type with
    | SignalType.hostStarted =>
      if cfg.isHost = false then
        ⟨st, [Effect.send ⟨SignalType.viewerReady, cfg.peerId, none⟩], false⟩
      else ⟨st, [], false⟩
    | SignalType.viewerReady =>
      if cfg.isHost = true then
        let roomSends := onViewerReadyHandler cfg.peerId st.room sig.«from»
        let r := sendOfferToViewer cfg.peerId st.hook sig.«from»
        ⟨⟨r.1, st.room⟩, roomSends.map Effect.send ++ r.2, false⟩
      else ⟨st, [], false⟩
    | SignalType.offer sdp =>
      if cfg.isHost = false then
        let c := createPeerConnection st.hook sig.«from»
        let answerSdp := "answer-to:" ++ sdp
        let pc := { c.1 with remoteDesc := some sdp, localDesc := some answerSdp }
        let hook' :=
          { c.2 with peerConnections := mapSet c.2.peerConnections sig.«from» pc }
        ⟨⟨hook', st.room⟩,
         [Effect.send ⟨SignalType.answer answerSdp, cfg.peerId, some sig.«from»⟩],
         false⟩
      else ⟨st, [], false⟩
    | SignalType.answer sdp =>
      if cfg.isHost = true then
        match mapGet st.hook.peerConnections sig.«from» with
        | some pc =>
          let pc' := { pc with remoteDesc := some sdp }
          let hook' :=
            { st.hook with
              peerConnections := mapSet st.hook.peerConnections sig.«from» pc' }
          ⟨⟨hook', st.room⟩, [], false⟩
        | none => ⟨st, [], false⟩
      else ⟨st, [], false⟩
    | SignalType.iceCandidate cand =>
      match mapGet st.hook.peerConnections sig.«from», cand with
      | some pc, some c =>
        if fm.addIceCandidateFails c then ⟨st, [], false⟩
        else
          let pc' := { pc with candidates := pc.candidates ++ [c] }
          let hook' :=
            { st.hook with
              peerConnections := mapSet st.hook.peerConnections sig.«from» pc' }
          ⟨⟨hook', st.room⟩, [], false⟩
      | _, _ => ⟨st, [], false⟩
    | SignalType.hostStopped =>
      if cfg.isHost = false then
        let room' :=
          { st.room with
            hasStream := false,
            video := st.room.video.map fun v : VideoEl => { v with srcObject := false } }
        let cl := closePcs fm st.hook.peerConnections
        if cl.2 then ⟨⟨st.hook, room'⟩, cl.1, true⟩
        else ⟨⟨{ st.hook with peerConnections := [] }, room'⟩, cl.1, false⟩
      else ⟨st, [], false⟩
    | SignalType.control a p =>
      if cfg.isHost = false then
        ⟨⟨st.hook, handleControlReceived cfg.isHost st.room a p⟩, [], false⟩
      else ⟨st, [], false⟩

/-- The asynchronous events a participant reacts to: an inbound signal, the
channel reporting `SUBSCRIBED`, the local user actions of the host
(starting a screen share with an acquired stream, stopping, a completed
file upload with its public url), a locally generated ICE candidate for a
connection built for a given remote peer, the bound media-element events
of the host's file playback, one tick of the 5-second sync interval, and a
remote track arriving at a connection. -/
inductive Event where
  | signalArrives (sig : Signal)
  | subscribed
  | startShare (stream : MediaStream)
  | stopShare
  | fileUploaded (url : String)
  | iceCandidateGenerated (remotePeerId : String) (cand : IceCandidate)
  | hostVideoPlay
  | hostVideoPause
  | hostVideoSeeked (t : ℚ)
  | syncTick
  | trackReceived
deriving DecidableEq

/-- One event-handler invocation of the participant, dispatching to the
code's handlers.  `startShare` is `handleStartShare` after a successful
`getDisplayMedia`; `stopShare` is `handleStopShare`; `fileUploaded` is the
post-upload part of `handleFileUpload` (which first calls
`handleStopShare` when `isSharing`); `hostVideoPlay`/`Pause`/`Seeked` are
the element handlers `handleFileUpload` binds; `syncTick` is the sync
interval callback; `trackReceived` is the `ontrack` path, which only hands
the composed stream to the viewer's rendering element. -/
def step (fm : FaultModel) (cfg : Config) (st : SysState) (e : Event) : StepResult :=
  match e with
  | Event.signalArrives sig => handleSignalStep fm cfg st sig
  | Event.subscribed =>
    if cfg.isHost = false then
      ⟨st, [Effect.send ⟨SignalType.viewerReady, cfg.peerId, none⟩], false⟩
    else ⟨st, [], false⟩
  | Event.startShare stream =>
    let room₁ :=
      { st.room with
        videoFileUrl := none,
        localVideo := st.room.localVideo.map fun v : VideoEl =>
          { v with src := "", controls := false, muted := true } }
    let room₂ :=
      { room₁ with
        isSharing := true,
        hasStream := true,
        localVideo := room₁.localVideo.map fun v : VideoEl =>
          { v with srcObject := true, paused := false } }
    ⟨⟨{ st.hook with localStream := some stream }, room₂⟩,
     [Effect.send ⟨SignalType.hostStarted, cfg.peerId, none⟩], false⟩
  | Event.stopShare =>
    let r := stopSharing fm cfg.peerId st.hook
    if r.threw then ⟨⟨r.state, st.room⟩, r.effects, true⟩
    else ⟨⟨r.state, roomAfterStop st.room⟩, r.effects, false⟩
  | Event.fileUploaded url =>
    let pre : StepResult :=
      if st.room.isSharing = true then
        let r := stopSharing fm cfg.peerId st.hook
        if r.threw then ⟨⟨r.state, st.room⟩, r.effects, true⟩
        else ⟨⟨r.state, roomAfterStop st.room⟩, r.effects, false⟩
      else ⟨st, [], false⟩
    if pre.threw then pre
    else
      let room₁ :=
        { pre.state.room with
          videoFileUrl := some url,
          isSharing := true,
          hasStream := true }
      let room₂ :=
        { room₁ with
          localVideo := room₁.localVideo.map fun v : VideoEl =>
            { v with srcObject := false, src := url, controls := true,
                     muted := false, paused := false } }
      ⟨⟨pre.state.hook, room₂⟩,
       pre.effects ++
         [Effect.send ⟨SignalType.control ControlAction.fileUrl ⟨none, some url⟩,
                       cfg.peerId, none⟩],
       false⟩
  | Event.iceCandidateGenerated remotePeerId cand =>
    ⟨st,
     [Effect.send ⟨SignalType.iceCandidate (some cand), cfg.peerId, some remotePeerId⟩],
     false⟩
  | Event.hostVideoPlay =>
    let room' :=
      { st.room with
        localVideo := st.room.localVideo.map fun v : VideoEl => { v with paused := false } }
    ⟨⟨st.hook, room'⟩,
     [Effect.send ⟨SignalType.control ControlAction.play ⟨none, none⟩, cfg.peerId, none⟩],
     false⟩
  | Event.hostVideoPause =>
    let room' :=
      { st.room with
        localVideo := st.room.localVideo.map fun v : VideoEl => { v with paused := true } }
    ⟨⟨st.hook, room'⟩,
     [Effect.send ⟨SignalType.control ControlAction.pause ⟨none, none⟩, cfg.peerId, none⟩],
     false⟩
  | Event.hostVideoSeeked t =>
    let room' :=
      { st.room with
        localVideo := st.room.localVideo.map fun v : VideoEl => { v with currentTime := t } }
    ⟨⟨st.hook, room'⟩,
     [Effect.send ⟨SignalType.control ControlAction.seek
        ⟨room'.localVideo.map fun v : VideoEl => v.currentTime, none⟩, cfg.peerId, none⟩],
     false⟩
  | Event.syncTick =>
    match st.room.localVideo with
    | some v =>
      if v.paused = false then
        ⟨st,
         [Effect.send ⟨SignalType.control ControlAction.sync
            ⟨some v.currentTime, none⟩, cfg.peerId, none⟩],
         false⟩
      else ⟨st, [], false⟩
    | none => ⟨st, [], false⟩
  | Event.trackReceived =>
    if cfg.isHost = false then
      let room' :=
        { st.room with
          streamMode := StreamMode.screen,
          hasStream := true,
          video := st.room.video.map fun v : VideoEl =>
            { v with srcObject := true, src := "", paused := false } }
      ⟨⟨st.hook, room'⟩, [], false⟩
    else ⟨st, [], false⟩

/-- A sequence of event-handler invocations, collecting all effects. -/
def run (fm : FaultModel) (cfg : Config) : SysState → List Event → SysState × List Effect
  | st, [] => (st, [])
  | st, e :: es =>
    let r := step fm cfg st e
    let rest := run fm cfg r.state es
    (rest.1, r.effects ++ rest.2)

/-- Whether an effect is the publication of an `offer` signal. -/
def isOfferSend : Effect → Bool
  | Effect.send s =>
    match s.type with
    | SignalType.offer _ => true
    | _ => false
  | _ => false

/-- Whether an effect is the publication of an `answer` signal. -/
def isAnswerSend : Effect → Bool
  | Effect.send s =>
    match s.type with
    | SignalType.answer _ => true
    | _ => false
  | _ => false

/-- Whether an effect is the publication of a `viewer-ready` signal. -/
def isViewerReadySend : Effect → Bool
  | Effect.send s =>
    match s.type with
    | SignalType.viewerReady => true
    | _ => false
  | _ => false

/-- Number of `viewer-ready` publications among a list of effects. -/
def countViewerReady (effs : List Effect) : Nat :=
  (effs.filter isViewerReadySend).length

/-- The registry maps each peer to at most one session: its keys are
pairwise distinct. -/
def RegistryUnique (st : SysState) : Prop :=
  (st.hook.peerConnections.map Prod.fst).Nodup

/-- A fresh, unattached media element: position 0, paused, nothing wired. -/
def freshVideo : VideoEl :=
  ⟨0, true, "", false, false, false⟩

/-- Initial page state: not sharing, screen mode, both element refs
attached to fresh elements. -/
def initialRoom : RoomState :=
  ⟨false, false, StreamMode.screen, none, some freshVideo, some freshVideo⟩

/-- Initial hook state: empty registry, no stream, no session allocated. -/
def initialHook : HookState :=
  ⟨[], none, 0⟩

/-- Initial participant state. -/
def initialSys : SysState :=
  ⟨initialHook, initialRoom⟩

/-- A host participant. -/
def cfgHost : Config :=
  ⟨"peer_host0001", true⟩

/-- A viewer participant. -/
def cfgViewer : Config :=
  ⟨"peer_view0001", false⟩

/-- A host that is screen-sharing a two-track stream. -/
def sharingSys : SysState :=
  ⟨⟨[], some ⟨[0, 1]⟩, 0⟩,
   { initialRoom with isSharing := true,
                      localVideo := some { freshVideo with srcObject := true, paused := false } }⟩

/-- A host that is sharing an uploaded file at playback position 42,
playing: file mode, a public url set, no local capture stream held. -/
def fileSharingSys : SysState :=
  ⟨⟨[], none, 0⟩,
   ⟨true, true, StreamMode.file, some "https://cdn.example/movie.mp4",
    some ⟨42, false, "https://cdn.example/movie.mp4", false, false, true⟩,
    some freshVideo⟩⟩

/-- A `viewer-ready` broadcast from the viewer. -/
def vrSignal : Signal :=
  ⟨SignalType.viewerReady, "peer_view0001", none⟩

/-- A fault model in which stopping the first track throws (used to probe
the unguarded release sequence in `stopSharing`). -/
def firstTrackThrows : FaultModel :=
  ⟨fun t => t == 0, fun _ => false, fun _ => false⟩

/-- A peer connection already negotiated for the viewer. -/
def pcForViewer : PeerConnection :=
  ⟨5, "peer_view0001", some "remote-sdp", some "offer:5", [], [0, 1]⟩

/-- A host holding a two-track stream with the viewer's session registered. -/
def hostWithSession : HookState :=
  ⟨[("peer_view0001", pcForViewer)], some ⟨[0, 1]⟩, 6⟩

/-- A `host-started` broadcast from the host. -/
def hostStartedSignal : Signal :=
  ⟨SignalType.hostStarted, "peer_host0001", none⟩

/-- A `host-started` signal whose `to` field is set to the empty string:
`to` is set and differs from every generated peer identity, yet JS
truthiness treats it as absent. -/
def emptyToSignal : Signal :=
  ⟨SignalType.hostStarted, "peer_host0001", some ""⟩

/-- A viewer with a session registered for the host. -/
def viewerWithSession : SysState :=
  ⟨⟨[("peer_host0001", ⟨0, "peer_host0001", some "offer-sdp", some "answer-to:offer-sdp", [], []⟩)],
    none, 1⟩,
   initialRoom⟩

/-- A viewer whose video element is at position 10 and playing. -/
def viewerAt10 : RoomState :=
  { initialRoom with
    streamMode := StreamMode.file,
    hasStream := true,
    video := some { freshVideo with currentTime := 10, paused := false } }

theorem mapSet_keys_of_mem {m : List (String × PeerConnection)} {k : String}
    (v : PeerConnection) (h : (m.any fun p => p.1 == k) = true) :
    (mapSet m k v).map Prod.fst = m.map Prod.fst := by
  unfold mapSet
  rw [if_pos h, List.map_map]
  refine List.map_congr_left fun p _ => ?_
  by_cases hp : p.1 = k
  · simp [hp]
  · simp [hp]

theorem mapSet_keys_of_not_mem {m : List (String × PeerConnection)} {k : String}
    (v : PeerConnection) (h : (m.any fun p => p.1 == k) = false) :
    (mapSet m k v).map Prod.fst = m.map Prod.fst ++ [k] := by
  unfold mapSet
  rw [if_neg (by simp [h]), List.map_append]
  rfl

theorem mapSet_keys_nodup {m : List (String × PeerConnection)} {k : String}
    (v : PeerConnection) (h : (m.map Prod.fst).Nodup) :
    ((mapSet m k v).map Prod.fst).Nodup := by
  cases hm : m.any fun p => p.1 == k with
  | true => rw [mapSet_keys_of_mem v hm]; exact h
  | false =>
    rw [mapSet_keys_of_not_mem v hm]
    rw [List.nodup_append]
    refine ⟨h, List.nodup_singleton k, ?_⟩
    intro a ha hk
    rw [List.mem_singleton] at hk
    rw [List.mem_map] at ha
    obtain ⟨p, hp, hpa⟩ := ha
    have hb : (p.1 == k) = true := by rw [hpa, hk]; exact beq_self_eq_true _
    have : (m.any fun q => q.1 == k) = true := List.any_eq_true.mpr ⟨p, hp, hb⟩
    rw [hm] at this
    exact Bool.false_ne_true this

theorem stopTracks_mem (fm : FaultModel) :
    ∀ ts : List Track, ∀ e ∈ (stopTracks fm ts).1, ∃ t, e = Effect.trackStop t := by
  intro ts
  induction ts with
  | nil => intro e he; simp [stopTracks] at he
  | cons t ts ih =>
    intro e he
    cases h : fm.trackStopThrows t with
    | true => simp [stopTracks, h] at he
    | false =>
      simp only [stopTracks, h] at he
      simp only [Bool.false_eq_true, if_false, List.mem_cons] at he
      rcases he with he | he
      · exact ⟨t, he⟩
      · exact ih e he

theorem closePcs_mem (fm : FaultModel) :
    ∀ m : List (String × PeerConnection), ∀ e ∈ (closePcs fm m).1,
      ∃ i, e = Effect.pcClose i := by
  intro m
  induction m with
  | nil => intro e he; simp [closePcs] at he
  | cons q m ih =>
    intro e he
    cases h : fm.pcCloseThrows q.2.id with
    | true => simp [closePcs, h] at he
    | false =>
      simp only [closePcs, h] at he
      simp only [Bool.false_eq_true, if_false, List.mem_cons] at he
      rcases he with he | he
      · exact ⟨q.2.id, he⟩
      · exact ih e he

theorem stopSharing_mem (fm : FaultModel) (p : String) (hook : HookState) :
    ∀ e ∈ (stopSharing fm p hook).effects,
      (∃ t, e = Effect.trackStop t) ∨ (∃ i, e = Effect.pcClose i) ∨
        e = Effect.send ⟨SignalType.hostStopped, p, none⟩ := by
  intro e he
  simp only [stopSharing] at he
  cases h1 : (stopTracks fm (streamTracks hook.localStream)).2 with
  | true =>
    simp only [h1, if_true] at he
    exact Or.inl (stopTracks_mem fm _ e he)
  | false =>
    simp only [h1, Bool.false_eq_true, if_false] at he
    cases h2 : (closePcs fm ({ hook with localStream := none } : HookState).peerConnections).2 with
    | true =>
      simp only [h2, if_true, List.mem_append] at he
      rcases he with he | he
      · exact Or.inl (stopTracks_mem fm _ e he)
      · exact Or.inr (Or.inl (closePcs_mem fm _ e he))
    | false =>
      simp only [h2, Bool.false_eq_true, if_false, List.mem_append, List.mem_singleton] at he
      rcases he with (he | he) | he
      · exact Or.inl (stopTracks_mem fm _ e he)
      · exact Or.inr (Or.inl (closePcs_mem fm _ e he))
      · exact Or.inr (Or.inr he)

theorem stopTracks_noThrow (ts : List Track) :
    stopTracks noThrowFaults ts = (ts.map Effect.trackStop, false) := by
  induction ts with
  | nil => rfl
  | cons t ts ih =>
    simp [stopTracks, show noThrowFaults.trackStopThrows t = false from rfl, ih]

theorem closePcs_noThrow (m : List (String × PeerConnection)) :
    closePcs noThrowFaults m = (m.map fun q => Effect.pcClose q.2.id, false) := by
  induction m with
  | nil => rfl
  | cons q m ih =>
    simp [closePcs, show noThrowFaults.pcCloseThrows q.2.id = false from rfl, ih]

theorem stopSharing_noThrow (p : String) (hook : HookState) :
    stopSharing noThrowFaults p hook =
      ⟨⟨[], none, hook.nextPcId⟩,
       (streamTracks hook.localStream).map Effect.trackStop ++
         hook.peerConnections.map (fun q => Effect.pcClose q.2.id) ++
         [Effect.send ⟨SignalType.hostStopped, p, none⟩],
       false⟩ := by
  simp [stopSharing, stopTracks_noThrow, closePcs_noThrow]

theorem any_eq_false_of_forall {l : List Effect} {f : Effect → Bool}
    (h : ∀ e ∈ l, f e = false) : l.any f = false := by
  rw [List.any_eq_false]
  intro e he
  simp [h e he]

theorem onViewerReadyHandler_mem (p : String) (room : RoomState) (v : String) :
    ∀ s ∈ onViewerReadyHandler p room v,
      ∃ a pl, s = Signal.mk (SignalType.control a pl) p (some v) := by
  intro s hs
  unfold onViewerReadyHandler at hs
  split at hs
  · simp at hs
  · split at hs
    · rw [List.mem_append] at hs
      rcases hs with hs | hs
      · rw [List.mem_cons, List.mem_singleton] at hs
        rcases hs with hs | hs
        · exact ⟨_, _, hs⟩
        · exact ⟨_, _, hs⟩
      · split at hs
        · simp at hs
        · split at hs
          · rw [List.mem_singleton] at hs
            exact ⟨_, _, hs⟩
          · simp at hs
    · simp at hs

theorem stopSharing_registry (fm : FaultModel) (p : String) (hook : HookState) :
    (stopSharing fm p hook).state.peerConnections = hook.peerConnections ∨
      (stopSharing fm p hook).state.peerConnections = [] := by
  unfold stopSharing
  cases h1 : (stopTracks fm (streamTracks hook.localStream)).2 with
  | true => simp [h1]
  | false =>
    cases h2 : (closePcs fm ({ hook with localStream := none } : HookState).peerConnections).2 with
    | true => simp [h1, h2]
    | false => simp [h1, h2]

/-- C1 counterexample: a sharing host that handles the same `viewer-ready`
twice allocates a second transport session for that peer.  After the first
signal one session has been allocated (`nextPcId = 1`) and the registry
entry for the viewer holds the connection with allocation id 0; after the
duplicate, a second session has been allocated (`nextPcId = 2`) and the
registry entry has been replaced by the fresh connection with allocation
id 1 (the first is leaked, not reused), though the registry still holds
exactly one entry. -/
theorem c1_counterexample :
    (step noThrowFaults cfgHost sharingSys (Event.signalArrives vrSignal)).state.hook.nextPcId
        = 1 ∧
    (mapGet (step noThrowFaults cfgHost sharingSys
        (Event.signalArrives vrSignal)).state.hook.peerConnections
        "peer_view0001").map PeerConnection.id = some 0 ∧
    (step noThrowFaults cfgHost
        (step noThrowFaults cfgHost sharingSys (Event.signalArrives vrSignal)).state
        (Event.signalArrives vrSignal)).state.hook.nextPcId = 2 ∧
    (mapGet (step noThrowFaults cfgHost
        (step noThrowFaults cfgHost sharingSys (Event.signalArrives vrSignal)).state
        (Event.signalArrives vrSignal)).state.hook.peerConnections
        "peer_view0001").map PeerConnection.id = some 1 ∧
    (step noThrowFaults cfgHost
        (step noThrowFaults cfgHost sharingSys (Event.signalArrives vrSignal)).state
        (Event.signalArrives vrSignal)).state.hook.peerConnections.length = 1 := by
  decide

/-- C1 (amended): the registry itself never holds two sessions for one
peer — every handler invocation preserves key uniqueness, because the
registry write replaces an existing entry in place — even though a
duplicate session-creating signal allocates a fresh transport session that
replaces (without closing) the previous one. -/
theorem c1_amended (fm : FaultModel) (cfg : Config) (st : SysState) (e : Event)
    (h : RegistryUnique st) : RegistryUnique (step fm cfg st e).state := by
  unfold RegistryUnique at h ⊢
  cases e with
  | signalArrives sig =>
    obtain ⟨ty, f, t0⟩ := sig
    show ((handleSignalStep fm cfg st ⟨ty, f, t0⟩).state.hook.peerConnections.map
      Prod.fst).Nodup
    unfold handleSignalStep
    by_cases h1 : (⟨ty, f, t0⟩ : Signal).«from» = cfg.peerId
    · rw [if_pos h1]; exact h
    · rw [if_neg h1]
      by_cases h2 : jsTruthyStr (⟨ty, f, t0⟩ : Signal).«to» = true ∧
          (⟨ty, f, t0⟩ : Signal).«to» ≠ some cfg.peerId
      · rw [if_pos h2]; exact h
      · rw [if_neg h2]
        cases ty with
        | offer sdp =>
          cases hh : cfg.isHost with
          | false =>
            simp only [hh, createPeerConnection]
            exact mapSet_keys_nodup _ (mapSet_keys_nodup _ h)
          | true => simp only [hh]; exact h
        | answer sdp =>
          cases hh : cfg.isHost with
          | true =>
            simp only [hh]
            cases hg : mapGet st.hook.peerConnections f with
            | some pc => exact mapSet_keys_nodup _ h
            | none => exact h
          | false => simp only [hh]; exact h
        | iceCandidate cand =>
          cases cand with
          | none =>
            cases hg : mapGet st.hook.peerConnections f with
            | some pc => simp only [hg]; exact h
            | none => simp only [hg]; exact h
          | some c =>
            cases hg : mapGet st.hook.peerConnections f with
            | none => simp only [hg]; exact h
            | some pc =>
              cases hf : fm.addIceCandidateFails c with
              | true => simp only [hg, hf]; exact h
              | false => simp only [hg, hf]; exact mapSet_keys_nodup _ h
        | hostStopped =>
          cases hh : cfg.isHost with
          | false =>
            cases hc : (closePcs fm st.hook.peerConnections).2 with
            | true => simp only [hh, hc]; exact h
            | false =>
              simp only [hh, hc]
              exact (List.nodup_nil : ([] : List String).Nodup)
          | true => simp only [hh]; exact h
        | hostStarted =>
          cases hh : cfg.isHost with
          | false => simp only [hh]; exact h
          | true => simp only [hh]; exact h
        | viewerReady =>
          cases hh : cfg.isHost with
          | true =>
            simp only [hh, sendOfferToViewer]
            cases hs : st.hook.localStream with
            | none => simp only [hs]; exact h
            | some stream =>
              simp only [hs, createPeerConnection]
              exact mapSet_keys_nodup _ (mapSet_keys_nodup _ h)
          | false => simp only [hh]; exact h
        | control a pl =>
          cases hh : cfg.isHost with
          | false => simp only [hh]; exact h
          | true => simp only [hh]; exact h
  | subscribed =>
    cases hh : cfg.isHost with
    | false => simp only [step, hh]; exact h
    | true => simp only [step, hh]; exact h
  | startShare stream => exact h
  | stopShare =>
    show (((step fm cfg st Event.stopShare).state.hook.peerConnections).map Prod.fst).Nodup
    unfold step
    cases ht : (stopSharing fm cfg.peerId st.hook).threw with
    | true =>
      simp only [ht, if_true]
      rcases stopSharing_registry fm cfg.peerId st.hook with hr | hr
      · rw [hr]; exact h
      · rw [hr]; exact List.nodup_nil
    | false =>
      simp only [ht, Bool.false_eq_true, if_false]
      rcases stopSharing_registry fm cfg.peerId st.hook with hr | hr
      · rw [hr]; exact h
      · rw [hr]; exact List.nodup_nil
  | fileUploaded url =>
    show (((step fm cfg st (Event.fileUploaded url)).state.hook.peerConnections).map
      Prod.fst).Nodup
    unfold step
    cases hsh : st.room.isSharing with
    | true =>
      simp only [hsh, if_true]
      cases ht : (stopSharing fm cfg.peerId st.hook).threw with
      | true =>
        simp only [ht, if_true]
        rcases stopSharing_registry fm cfg.peerId st.hook with hr | hr
        · rw [hr]; exact h
        · rw [hr]; exact List.nodup_nil
      | false =>
        simp only [ht, Bool.false_eq_true, if_false]
        rcases stopSharing_registry fm cfg.peerId st.hook with hr | hr
        · rw [hr]; exact h
        · rw [hr]; exact List.nodup_nil
    | false => simp only [hsh]; exact h
  | iceCandidateGenerated remotePeerId cand => exact h
  | hostVideoPlay => exact h
  | hostVideoPause => exact h
  | hostVideoSeeked t => exact h
  | syncTick =>
    cases hv : st.room.localVideo with
    | some v =>
      cases hp : v.paused with
      | false => simp only [step, hv, hp]; exact h
      | true => simp only [step, hv, hp]; exact h
    | none => simp only [step, hv]; exact h
  | trackReceived =>
    cases hh : cfg.isHost with
    | false => simp only [step, hh]; exact h
    | true => simp only [step, hh]; exact h

/-- Witness for C1 (amended): registry key uniqueness is preserved when
the sharing host handles a `viewer-ready`. -/
theorem c1_witness :
    RegistryUnique (step noThrowFaults cfgHost sharingSys
      (Event.signalArrives vrSignal)).state :=
  c1_amended noThrowFaults cfgHost sharingSys (Event.signalArrives vrSignal)
    (by unfold RegistryUnique; decide)

/-- C2: on a received `sync{time: s}` control signal, a viewer whose video
element is `vid` snaps its local time to `s` exactly when the drift
`|vid.currentTime - s|` exceeds 0.3 and the element is not paused; in
every other case the room state — in particular the local playback time —
is unchanged. -/
theorem c2_sync_drift (room : RoomState) (vid : VideoEl) (s : ℚ)
    (h : room.video = some vid) :
    handleControlReceived false room ControlAction.sync ⟨some s, none⟩ =
      if |vid.currentTime - s| > 3 / 10 ∧ vid.paused = false then
        { room with video := some { vid with currentTime := s } }
      else room := by
  unfold handleControlReceived
  rw [h]
  rfl

/-- Witness for C2 at the claim's example inputs: with local time 10 and
playback active, `sync{10.2}` (drift 0.2) leaves the state unchanged while
`sync{10.5}` (drift 0.5) snaps the local time to 10.5. -/
theorem c2_witness :
    handleControlReceived false viewerAt10 ControlAction.sync ⟨some (102 / 10), none⟩ =
        viewerAt10 ∧
    handleControlReceived false viewerAt10 ControlAction.sync ⟨some (105 / 10), none⟩ =
      { viewerAt10 with
        video := some { freshVideo with currentTime := 105 / 10, paused := false } } := by
  constructor
  · rw [c2_sync_drift viewerAt10 { freshVideo with currentTime := 10, paused := false }
      (102 / 10) rfl, if_neg]
    intro hc
    have h1 : (3 : ℚ) / 10 < |(10 : ℚ) - 102 / 10| := hc.1
    rw [lt_abs] at h1
    rcases h1 with h1 | h1 <;> norm_num at h1
  · rw [c2_sync_drift viewerAt10 { freshVideo with currentTime := 10, paused := false }
      (105 / 10) rfl, if_pos]
    refine ⟨?_, rfl⟩
    show (3 : ℚ) / 10 < |(10 : ℚ) - 105 / 10|
    rw [lt_abs]
    right
    norm_num

/-- C4 counterexample: a signal whose `to` field is set to the empty
string — which is set and differs from the local identity — is not
discarded: JS truthiness treats `""` as absent, so a viewer handling a
`host-started` with `to = ""` still emits a `viewer-ready` broadcast. -/
theorem c4_counterexample :
    emptyToSignal.«to» = some "" ∧ some "" ≠ some cfgViewer.peerId ∧
    (step noThrowFaults cfgViewer initialSys (Event.signalArrives emptyToSignal)).effects =
      [Effect.send ⟨SignalType.viewerReady, "peer_view0001", none⟩] := by
  decide

/-- C4 (amended): every inbound signal with `from` equal to the local
identity, or with `to` set to a non-empty string different from the local
identity, is discarded: no state transition, no outbound signal, no
exception.  (A `to` equal to the empty string is treated as absent by the
code's truthiness test.) -/
theorem c4_amended (fm : FaultModel) (cfg : Config) (st : SysState) (sig : Signal)
    (h : sig.«from» = cfg.peerId ∨
      ∃ t, sig.«to» = some t ∧ t ≠ "" ∧ t ≠ cfg.peerId) :
    step fm cfg st (Event.signalArrives sig) = ⟨st, [], false⟩ := by
  show handleSignalStep fm cfg st sig = ⟨st, [], false⟩
  unfold handleSignalStep
  rcases h with h | ⟨t, ht, hne, hnp⟩
  · rw [if_pos h]
  · by_cases h1 : sig.«from» = cfg.peerId
    · rw [if_pos h1]
    · rw [if_neg h1, if_pos]
      constructor
      · rw [ht]
        simp [jsTruthyStr, hne]
      · rw [ht]
        intro hc
        exact hnp (Option.some_injective _ hc)

/-- Witness for C4 (amended): a signal addressed to another peer is
dropped by the viewer with no state change and no effect. -/
theorem c4_witness :
    step noThrowFaults cfgViewer initialSys
      (Event.signalArrives ⟨SignalType.hostStarted, "peer_host0001", some "peer_other999"⟩) =
      ⟨initialSys, [], false⟩ :=
  c4_amended noThrowFaults cfgViewer initialSys
    ⟨SignalType.hostStarted, "peer_host0001", some "peer_other999"⟩
    (Or.inr ⟨"peer_other999", rfl, by decide, by decide⟩)

/-- C5 counterexample: under a fault model in which stopping the first
track throws, `stopSharing` on a host holding a two-track stream and one
registered session attempts nothing further: no effect at all is emitted —
the second track's stop and the connection's close are never attempted, no
`host-stopped` broadcast is sent — the exception escapes, and the hook
state (stream ref and registry) is left untouched. -/
theorem c5_counterexample :
    stopSharing firstTrackThrows "peer_host0001" hostWithSession =
      ⟨hostWithSession, [], true⟩ := by
  decide

/-- C5 (amended): the releases are attempted in sequence with no exception
guard.  Under the actual platform behaviour (`track.stop()` and
`pc.close()` never throw) every track stop and every connection close is
attempted, the registry is cleared, the stream ref nulled, and the
`host-stopped` broadcast is always sent; but a release that did throw
would abort the remaining releases and skip the broadcast
(`c5_counterexample`). -/
theorem c5_amended (p : String) (hook : HookState) :
    (stopSharing noThrowFaults p hook).threw = false ∧
    (stopSharing noThrowFaults p hook).effects =
      (streamTracks hook.localStream).map Effect.trackStop ++
        hook.peerConnections.map (fun q => Effect.pcClose q.2.id) ++
        [Effect.send ⟨SignalType.hostStopped, p, none⟩] ∧
    (stopSharing noThrowFaults p hook).state.peerConnections = [] ∧
    (stopSharing noThrowFaults p hook).state.localStream = none := by
  rw [stopSharing_noThrow]
  exact ⟨rfl, rfl, rfl, rfl⟩

/-- C9: calling `stopSharing` twice in succession: neither call lets an
exception escape, and the peer-connection registry is empty after the
first call and still empty after the second. -/
theorem c9_stop_twice (p : String) (hook : HookState) :
    (stopSharing noThrowFaults p hook).threw = false ∧
    (stopSharing noThrowFaults p hook).state.peerConnections = [] ∧
    (stopSharing noThrowFaults p
        (stopSharing noThrowFaults p hook).state).threw = false ∧
    (stopSharing noThrowFaults p
        (stopSharing noThrowFaults p hook).state).state.peerConnections = [] := by
  rw [stopSharing_noThrow]
  refine ⟨rfl, rfl, ?_, ?_⟩
  · rw [stopSharing_noThrow]
  · rw [stopSharing_noThrow]

theorem not_addressed_elsewhere {cfg : Config} {sig : Signal}
    (hto : jsTruthyStr sig.«to» = false ∨ sig.«to» = some cfg.peerId) :
    ¬(jsTruthyStr sig.«to» = true ∧ sig.«to» ≠ some cfg.peerId) := by
  rintro ⟨h1, h2⟩
  rcases hto with h | h
  · rw [h] at h1
    exact Bool.false_ne_true h1
  · exact h2 h

theorem delivered_of_not_guard {t0 : Option String} {p : String}
    (h : ¬(jsTruthyStr t0 = true ∧ t0 ≠ some p)) :
    jsTruthyStr t0 = false ∨ t0 = some p := by
  cases hj : jsTruthyStr t0 with
  | false => exact Or.inl rfl
  | true =>
    right
    by_contra hne
    exact h ⟨hj, hne⟩

theorem sendOfferToViewer_noStream (p : String) (hook : HookState) (v : String)
    (h : hook.localStream = none) : sendOfferToViewer p hook v = (hook, []) := by
  unfold sendOfferToViewer
  rw [h]

theorem onViewerReadyHandler_file (p : String) (room : RoomState) (v : String)
    (url : String) (vid : VideoEl)
    (hmode : room.streamMode = StreamMode.file) (hsh : room.isSharing = true)
    (hurl : room.videoFileUrl = some url) (hurlne : url ≠ "")
    (hlv : room.localVideo = some vid) :
    onViewerReadyHandler p room v =
      [⟨SignalType.control ControlAction.fileUrl ⟨none, some url⟩, p, some v⟩,
       ⟨SignalType.control ControlAction.seek ⟨some vid.currentTime, none⟩, p, some v⟩]
      ++ (if vid.paused = false then
            [⟨SignalType.control ControlAction.play ⟨none, none⟩, p, some v⟩]
          else []) := by
  unfold onViewerReadyHandler
  simp only [hurl]
  rw [if_pos ⟨hmode, hsh, hurlne⟩]
  simp only [hlv]

theorem handleSignal_viewerReady_host (fm : FaultModel) (cfg : Config) (st : SysState)
    (v : String) (hhost : cfg.isHost = true) (hv : v ≠ cfg.peerId) :
    handleSignalStep fm cfg st ⟨SignalType.viewerReady, v, none⟩ =
      ⟨⟨(sendOfferToViewer cfg.peerId st.hook v).1, st.room⟩,
       (onViewerReadyHandler cfg.peerId st.room v).map Effect.send ++
         (sendOfferToViewer cfg.peerId st.hook v).2,
       false⟩ := by
  unfold handleSignalStep
  rw [if_neg hv, if_neg (show ¬(jsTruthyStr (none : Option String) = true ∧
    (none : Option String) ≠ some cfg.peerId) from fun hc => Bool.false_ne_true hc.1)]
  rw [hhost]
  rfl

/-- C3: a `viewer-ready` handled by a host that is sharing a file
(`streamMode = file`, `isSharing`, a non-empty file url, no local capture
stream — file mode acquires none) makes the host emit exactly the unicast
sequence `file-url{url}`, then `seek` at the local element's current time,
then `play` (the latter only if local playback is not paused), every
message addressed to the originating viewer alone; no broadcast and no
other signal is emitted. -/
theorem c3_late_join (fm : FaultModel) (cfg : Config) (st : SysState)
    (v url : String) (vid : VideoEl)
    (hhost : cfg.isHost = true) (hv : v ≠ cfg.peerId)
    (hmode : st.room.streamMode = StreamMode.file)
    (hsh : st.room.isSharing = true)
    (hurl : st.room.videoFileUrl = some url) (hurlne : url ≠ "")
    (hlv : st.room.localVideo = some vid)
    (hstream : st.hook.localStream = none) :
    (step fm cfg st (Event.signalArrives ⟨SignalType.viewerReady, v, none⟩)).effects =
      [Effect.send ⟨SignalType.control ControlAction.fileUrl ⟨none, some url⟩,
        cfg.peerId, some v⟩,
       Effect.send ⟨SignalType.control ControlAction.seek ⟨some vid.currentTime, none⟩,
        cfg.peerId, some v⟩]
      ++ (if vid.paused = false then
            [Effect.send ⟨SignalType.control ControlAction.play ⟨none, none⟩,
              cfg.peerId, some v⟩]
          else []) ∧
    ∀ eff ∈ (step fm cfg st (Event.signalArrives ⟨SignalType.viewerReady, v, none⟩)).effects,
      ∃ a pl, eff = Effect.send ⟨SignalType.control a pl, cfg.peerId, some v⟩ := by
  have hstep : step fm cfg st (Event.signalArrives ⟨SignalType.viewerReady, v, none⟩) =
      handleSignalStep fm cfg st ⟨SignalType.viewerReady, v, none⟩ := rfl
  rw [hstep, handleSignal_viewerReady_host fm cfg st v hhost hv,
    sendOfferToViewer_noStream cfg.peerId st.hook v hstream,
    onViewerReadyHandler_file cfg.peerId st.room v url vid hmode hsh hurl hurlne hlv]
  constructor
  · cases hp : vid.paused with
    | false => simp [hp]
    | true => simp [hp]
  · intro eff heff
    rw [List.append_nil, List.map_append, List.mem_append] at heff
    rcases heff with heff | heff
    · simp only [List.map_cons, List.map_nil, List.mem_cons,
        List.not_mem_nil, or_false] at heff
      rcases heff with heff | heff
      · exact ⟨_, _, heff⟩
      · exact ⟨_, _, heff⟩
    · by_cases hp : vid.paused = false
      · rw [if_pos hp] at heff
        simp only [List.map_cons, List.map_nil, List.mem_cons,
          List.not_mem_nil, or_false] at heff
        exact ⟨_, _, heff⟩
      · rw [if_neg hp] at heff
        simp at heff

/-- Witness for C3: the file-sharing host at position 42, playing, answers
a `viewer-ready` with exactly `file-url`, `seek{42}`, `play`, all unicast
to the originating viewer. -/
theorem c3_witness :
    (step noThrowFaults cfgHost fileSharingSys
        (Event.signalArrives vrSignal)).effects =
      [Effect.send ⟨SignalType.control ControlAction.fileUrl
          ⟨none, some "https://cdn.example/movie.mp4"⟩, "peer_host0001", some "peer_view0001"⟩,
       Effect.send ⟨SignalType.control ControlAction.seek ⟨some 42, none⟩,
          "peer_host0001", some "peer_view0001"⟩,
       Effect.send ⟨SignalType.control ControlAction.play ⟨none, none⟩,
          "peer_host0001", some "peer_view0001"⟩] := by
  have h := (c3_late_join noThrowFaults cfgHost fileSharingSys
      "peer_view0001" "https://cdn.example/movie.mp4"
      ⟨42, false, "https://cdn.example/movie.mp4", false, false, true⟩
      rfl (by decide) rfl rfl rfl (by decide) rfl rfl).1
  rw [show vrSignal = (⟨SignalType.viewerReady, "peer_view0001", none⟩ : Signal) from rfl,
    h]
  rfl

/-- C10: when the host holds no local capture stream (its active source is
a file, or nothing), handling a `viewer-ready` creates no peer session —
the whole participant state is unchanged, in particular the registry and
the allocation counter — and emits no `offer`; every effect it does emit
is a control message unicast to the originating viewer. -/
theorem c10_no_offer_in_file_mode (fm : FaultModel) (cfg : Config) (st : SysState)
    (v : String) (hhost : cfg.isHost = true) (hv : v ≠ cfg.peerId)
    (hstream : st.hook.localStream = none) :
    (step fm cfg st (Event.signalArrives ⟨SignalType.viewerReady, v, none⟩)).state = st ∧
    (step fm cfg st (Event.signalArrives ⟨SignalType.viewerReady, v, none⟩)).effects.any
      isOfferSend = false ∧
    ∀ eff ∈ (step fm cfg st (Event.signalArrives ⟨SignalType.viewerReady, v, none⟩)).effects,
      ∃ a pl, eff = Effect.send ⟨SignalType.control a pl, cfg.peerId, some v⟩ := by
  have hstep : step fm cfg st (Event.signalArrives ⟨SignalType.viewerReady, v, none⟩) =
      handleSignalStep fm cfg st ⟨SignalType.viewerReady, v, none⟩ := rfl
  rw [hstep, handleSignal_viewerReady_host fm cfg st v hhost hv,
    sendOfferToViewer_noStream cfg.peerId st.hook v hstream]
  refine ⟨rfl, ?_, ?_⟩
  · rw [List.append_nil]
    apply any_eq_false_of_forall
    intro eff heff
    rw [List.mem_map] at heff
    obtain ⟨s, hs, rfl⟩ := heff
    obtain ⟨a, pl, rfl⟩ := onViewerReadyHandler_mem cfg.peerId st.room v s hs
    rfl
  · intro eff heff
    rw [List.append_nil, List.mem_map] at heff
    obtain ⟨s, hs, rfl⟩ := heff
    obtain ⟨a, pl, rfl⟩ := onViewerReadyHandler_mem cfg.peerId st.room v s hs
    exact ⟨a, pl, rfl⟩

/-- Witness for C10: the file-sharing host's state is untouched by a
`viewer-ready` and no offer goes out. -/
theorem c10_witness :
    (step noThrowFaults cfgHost fileSharingSys
        (Event.signalArrives vrSignal)).state = fileSharingSys ∧
    (step noThrowFaults cfgHost fileSharingSys
        (Event.signalArrives vrSignal)).effects.any isOfferSend = false :=
  ⟨(c10_no_offer_in_file_mode noThrowFaults cfgHost fileSharingSys "peer_view0001"
      rfl (by decide) rfl).1,
   (c10_no_offer_in_file_mode noThrowFaults cfgHost fileSharingSys "peer_view0001"
      rfl (by decide) rfl).2.1⟩

/-- C8: a delivered `ice-candidate` signal carrying a candidate is handled
without any observable effect and without any exception, whatever the
fault model says about `addIceCandidate`: if no session is registered for
the sender it is silently dropped with no state change; if a session is
registered the candidate is added to that session's transport regardless
of its negotiation state, and a failing `addIceCandidate` is swallowed —
the state is simply left unchanged and the session stays registered. -/
theorem c8_ice_candidate (fm : FaultModel) (cfg : Config) (st : SysState) (sig : Signal)
    (c : IceCandidate)
    (hfrom : sig.«from» ≠ cfg.peerId)
    (hto : jsTruthyStr sig.«to» = false ∨ sig.«to» = some cfg.peerId)
    (hty : sig.type = SignalType.iceCandidate (some c)) :
    (mapGet st.hook.peerConnections sig.«from» = none →
      step fm cfg st (Event.signalArrives sig) = ⟨st, [], false⟩) ∧
    (∀ pc, mapGet st.hook.peerConnections sig.«from» = some pc →
      step fm cfg st (Event.signalArrives sig) =
        ⟨(if fm.addIceCandidateFails c then st
          else ⟨⟨mapSet st.hook.peerConnections sig.«from»
                   { pc with candidates := pc.candidates ++ [c] },
                 st.hook.localStream, st.hook.nextPcId⟩,
                st.room⟩),
         [], false⟩) := by
  have hstep : step fm cfg st (Event.signalArrives sig) =
      handleSignalStep fm cfg st sig := rfl
  constructor
  · intro hg
    rw [hstep]
    unfold handleSignalStep
    rw [if_neg hfrom, if_neg (not_addressed_elsewhere hto)]
    simp only [hty, hg]
  · intro pc hg
    rw [hstep]
    unfold handleSignalStep
    rw [if_neg hfrom, if_neg (not_addressed_elsewhere hto)]
    cases hf : fm.addIceCandidateFails c with
    | true => simp only [hty, hg, hf, if_true]
    | false => simp only [hty, hg, hf, Bool.false_eq_true, if_false]

/-- Witness for C8: the viewer's registered host session absorbs a
delivered candidate; no effect is emitted and no exception escapes. -/
theorem c8_witness :
    step noThrowFaults cfgViewer viewerWithSession
      (Event.signalArrives ⟨SignalType.iceCandidate (some "cand1"), "peer_host0001", none⟩) =
      ⟨⟨⟨[("peer_host0001",
           ⟨0, "peer_host0001", some "offer-sdp", some "answer-to:offer-sdp", ["cand1"], []⟩)],
         none, 1⟩,
        initialRoom⟩,
       [], false⟩ := by
  have h := (c8_ice_candidate noThrowFaults cfgViewer viewerWithSession
      ⟨SignalType.iceCandidate (some "cand1"), "peer_host0001", none⟩ "cand1"
      (by decide) (Or.inl rfl) rfl).2
      ⟨0, "peer_host0001", some "offer-sdp", some "answer-to:offer-sdp", [], []⟩
      (by decide)
  rw [h]
  decide

theorem handleSignal_discarded (fm : FaultModel) (cfg : Config) (st : SysState) (sig : Signal)
    (h : sig.«from» = cfg.peerId ∨
      (jsTruthyStr sig.«to» = true ∧ sig.«to» ≠ some cfg.peerId)) :
    step fm cfg st (Event.signalArrives sig) = ⟨st, [], false⟩ := by
  show handleSignalStep fm cfg st sig = _
  unfold handleSignalStep
  rcases h with h | h
  · rw [if_pos h]
  · by_cases h1 : sig.«from» = cfg.peerId
    · rw [if_pos h1]
    · rw [if_neg h1, if_pos h]

theorem handleSignal_effects_hostStarted (fm : FaultModel) (cfg : Config) (st : SysState)
    (f0 : String) (t0 : Option String)
    (h1 : ¬(f0 = cfg.peerId))
    (h2 : ¬(jsTruthyStr t0 = true ∧ t0 ≠ some cfg.peerId)) :
    (handleSignalStep fm cfg st ⟨SignalType.hostStarted, f0, t0⟩).effects =
      if cfg.isHost = false then
        [Effect.send ⟨SignalType.viewerReady, cfg.peerId, none⟩]
      else [] := by
  unfold handleSignalStep
  rw [if_neg h1, if_neg h2]
  cases hh : cfg.isHost <;> rfl

theorem handleSignal_effects_viewerReady (fm : FaultModel) (cfg : Config) (st : SysState)
    (f0 : String) (t0 : Option String)
    (h1 : ¬(f0 = cfg.peerId))
    (h2 : ¬(jsTruthyStr t0 = true ∧ t0 ≠ some cfg.peerId)) :
    (handleSignalStep fm cfg st ⟨SignalType.viewerReady, f0, t0⟩).effects =
      if cfg.isHost = true then
        (onViewerReadyHandler cfg.peerId st.room f0).map Effect.send ++
          (sendOfferToViewer cfg.peerId st.hook f0).2
      else [] := by
  unfold handleSignalStep
  rw [if_neg h1, if_neg h2]
  cases hh : cfg.isHost <;> rfl

theorem handleSignal_effects_offer (fm : FaultModel) (cfg : Config) (st : SysState)
    (f0 : String) (t0 : Option String) (sdp : Sdp)
    (h1 : ¬(f0 = cfg.peerId))
    (h2 : ¬(jsTruthyStr t0 = true ∧ t0 ≠ some cfg.peerId)) :
    (handleSignalStep fm cfg st ⟨SignalType.offer sdp, f0, t0⟩).effects =
      if cfg.isHost = false then
        [Effect.send ⟨SignalType.answer ("answer-to:" ++ sdp), cfg.peerId, some f0⟩]
      else [] := by
  unfold handleSignalStep
  rw [if_neg h1, if_neg h2]
  cases hh : cfg.isHost <;> rfl

theorem handleSignal_effects_answer (fm : FaultModel) (cfg : Config) (st : SysState)
    (f0 : String) (t0 : Option String) (sdp : Sdp)
    (h1 : ¬(f0 = cfg.peerId))
    (h2 : ¬(jsTruthyStr t0 = true ∧ t0 ≠ some cfg.peerId)) :
    (handleSignalStep fm cfg st ⟨SignalType.answer sdp, f0, t0⟩).effects = [] := by
  unfold handleSignalStep
  rw [if_neg h1, if_neg h2]
  cases hh : cfg.isHost with
  | false => rfl
  | true =>
    cases hg : mapGet st.hook.peerConnections f0 with
    | some pc => simp [hg]
    | none => simp [hg]

theorem handleSignal_effects_ice (fm : FaultModel) (cfg : Config) (st : SysState)
    (f0 : String) (t0 : Option String) (cand : Option IceCandidate)
    (h1 : ¬(f0 = cfg.peerId))
    (h2 : ¬(jsTruthyStr t0 = true ∧ t0 ≠ some cfg.peerId)) :
    (handleSignalStep fm cfg st ⟨SignalType.iceCandidate cand, f0, t0⟩).effects = [] := by
  unfold handleSignalStep
  rw [if_neg h1, if_neg h2]
  cases cand with
  | none =>
    cases hg : mapGet st.hook.peerConnections f0 with
    | some pc => simp [hg]
    | none => simp [hg]
  | some c =>
    cases hg : mapGet st.hook.peerConnections f0 with
    | none => simp [hg]
    | some pc =>
      cases hf : fm.addIceCandidateFails c with
      | true => simp [hg, hf]
      | false => simp [hg, hf]

theorem handleSignal_effects_hostStopped (fm : FaultModel) (cfg : Config) (st : SysState)
    (f0 : String) (t0 : Option String)
    (h1 : ¬(f0 = cfg.peerId))
    (h2 : ¬(jsTruthyStr t0 = true ∧ t0 ≠ some cfg.peerId)) :
    (handleSignalStep fm cfg st ⟨SignalType.hostStopped, f0, t0⟩).effects =
      if cfg.isHost = false then (closePcs fm st.hook.peerConnections).1 else [] := by
  unfold handleSignalStep
  rw [if_neg h1, if_neg h2]
  cases hh : cfg.isHost with
  | true => rfl
  | false =>
    cases hc : (closePcs fm st.hook.peerConnections).2 with
    | true => simp [hc]
    | false => simp [hc]

theorem handleSignal_effects_control (fm : FaultModel) (cfg : Config) (st : SysState)
    (f0 : String) (t0 : Option String) (a : ControlAction) (pl : CtrlPayload)
    (h1 : ¬(f0 = cfg.peerId))
    (h2 : ¬(jsTruthyStr t0 = true ∧ t0 ≠ some cfg.peerId)) :
    (handleSignalStep fm cfg st ⟨SignalType.control a pl, f0, t0⟩).effects = [] := by
  unfold handleSignalStep
  rw [if_neg h1, if_neg h2]
  cases hh : cfg.isHost <;> rfl

theorem roomSends_any_false (p : String) (room : RoomState) (v : String)
    (f : Effect → Bool)
    (hf : ∀ a pl t0, f (Effect.send ⟨SignalType.control a pl, p, t0⟩) = false) :
    ((onViewerReadyHandler p room v).map Effect.send).any f = false := by
  apply any_eq_false_of_forall
  intro e he
  rw [List.mem_map] at he
  obtain ⟨s, hs, rfl⟩ := he
  obtain ⟨a, pl, rfl⟩ := onViewerReadyHandler_mem p room v s hs
  exact hf a pl (some v)

theorem stopSharing_any_false (fm : FaultModel) (p : String) (hook : HookState)
    (f : Effect → Bool)
    (ht : ∀ t, f (Effect.trackStop t) = false)
    (hp : ∀ i, f (Effect.pcClose i) = false)
    (hs : f (Effect.send ⟨SignalType.hostStopped, p, none⟩) = false) :
    (stopSharing fm p hook).effects.any f = false := by
  apply any_eq_false_of_forall
  intro e he
  rcases stopSharing_mem fm p hook e he with ⟨t, rfl⟩ | ⟨i, rfl⟩ | rfl
  · exact ht t
  · exact hp i
  · exact hs

theorem closePcs_any_false (fm : FaultModel) (m : List (String × PeerConnection))
    (f : Effect → Bool) (hp : ∀ i, f (Effect.pcClose i) = false) :
    (closePcs fm m).1.any f = false := by
  apply any_eq_false_of_forall
  intro e he
  obtain ⟨i, rfl⟩ := closePcs_mem fm m e he
  exact hp i

theorem sendOffer_effects_any (p : String) (hook : HookState) (v : String)
    (f : Effect → Bool)
    (hf : ∀ sdp, f (Effect.send ⟨SignalType.offer sdp, p, some v⟩) = false) :
    (sendOfferToViewer p hook v).2.any f = false := by
  unfold sendOfferToViewer
  cases hs : hook.localStream with
  | none => rfl
  | some stream => simp [hf]

theorem step_fileUploaded_effects (fm : FaultModel) (cfg : Config) (st : SysState)
    (url : String) :
    (step fm cfg st (Event.fileUploaded url)).effects =
      (if st.room.isSharing = true then (stopSharing fm cfg.peerId st.hook).effects
       else []) ++
      (if st.room.isSharing = true ∧ (stopSharing fm cfg.peerId st.hook).threw = true then
        []
       else
        [Effect.send ⟨SignalType.control ControlAction.fileUrl ⟨none, some url⟩,
          cfg.peerId, none⟩]) := by
  unfold step
  cases hsh : st.room.isSharing with
  | false => simp [hsh]
  | true =>
    cases ht : (stopSharing fm cfg.peerId st.hook).threw with
    | true => simp [hsh, ht]
    | false => simp [hsh, ht]

theorem step_fileUploaded_any_false (fm : FaultModel) (cfg : Config) (st : SysState)
    (url : String) (f : Effect → Bool)
    (ht : ∀ t, f (Effect.trackStop t) = false)
    (hp : ∀ i, f (Effect.pcClose i) = false)
    (hs : f (Effect.send ⟨SignalType.hostStopped, cfg.peerId, none⟩) = false)
    (hc : f (Effect.send ⟨SignalType.control ControlAction.fileUrl ⟨none, some url⟩,
      cfg.peerId, none⟩) = false) :
    (step fm cfg st (Event.fileUploaded url)).effects.any f = false := by
  rw [step_fileUploaded_effects, List.any_append]
  have ha : (if st.room.isSharing = true then (stopSharing fm cfg.peerId st.hook).effects
      else []).any f = false := by
    by_cases hsh : st.room.isSharing = true
    · rw [if_pos hsh]
      exact stopSharing_any_false fm cfg.peerId st.hook f ht hp hs
    · rw [if_neg hsh]
      rfl
  have hb : (if st.room.isSharing = true ∧
        (stopSharing fm cfg.peerId st.hook).threw = true then []
      else
        [Effect.send ⟨SignalType.control ControlAction.fileUrl ⟨none, some url⟩,
          cfg.peerId, none⟩]).any f = false := by
    by_cases hcond : st.room.isSharing = true ∧
        (stopSharing fm cfg.peerId st.hook).threw = true
    · rw [if_pos hcond]
      rfl
    · rw [if_neg hcond]
      simp [hc]
  rw [ha, hb]
  rfl

theorem step_stopShare_effects (fm : FaultModel) (cfg : Config) (st : SysState) :
    (step fm cfg st Event.stopShare).effects =
      (stopSharing fm cfg.peerId st.hook).effects := by
  unfold step
  cases ht : (stopSharing fm cfg.peerId st.hook).threw with
  | true => simp [ht]
  | false => simp [ht]

/-- C6: role asymmetry of negotiation, over every event a participant can
handle.  An `offer` is published only by a participant in the Host role,
and only while handling a delivered `viewer-ready` signal; an `answer` is
published only by a participant in the Viewer role, and only while
handling a delivered `offer`.  In particular a Viewer never publishes an
offer and a Host never publishes an answer. -/
theorem c6_role_asymmetry (fm : FaultModel) (cfg : Config) (st : SysState) (e : Event) :
    ((step fm cfg st e).effects.any isOfferSend = true →
      cfg.isHost = true ∧ ∃ sig, e = Event.signalArrives sig ∧
        sig.type = SignalType.viewerReady ∧ sig.«from» ≠ cfg.peerId ∧
        (jsTruthyStr sig.«to» = false ∨ sig.«to» = some cfg.peerId)) ∧
    ((step fm cfg st e).effects.any isAnswerSend = true →
      cfg.isHost = false ∧ ∃ sig sdp, e = Event.signalArrives sig ∧
        sig.type = SignalType.offer sdp ∧ sig.«from» ≠ cfg.peerId ∧
        (jsTruthyStr sig.«to» = false ∨ sig.«to» = some cfg.peerId)) := by
  cases e with
  | signalArrives sig =>
    obtain ⟨ty, f0, t0⟩ := sig
    by_cases h1 : (⟨ty, f0, t0⟩ : Signal).«from» = cfg.peerId
    · rw [handleSignal_discarded fm cfg st _ (Or.inl h1)]
      refine ⟨fun h => ?_, fun h => ?_⟩ <;> simp at h
    · by_cases h2 : jsTruthyStr (⟨ty, f0, t0⟩ : Signal).«to» = true ∧
          (⟨ty, f0, t0⟩ : Signal).«to» ≠ some cfg.peerId
      · rw [handleSignal_discarded fm cfg st _ (Or.inr h2)]
        refine ⟨fun h => ?_, fun h => ?_⟩ <;> simp at h
      · have hdel : jsTruthyStr t0 = false ∨ t0 = some cfg.peerId :=
          delivered_of_not_guard h2
        have hstep : step fm cfg st (Event.signalArrives ⟨ty, f0, t0⟩) =
            handleSignalStep fm cfg st ⟨ty, f0, t0⟩ := rfl
        cases ty with
        | hostStarted =>
          refine ⟨fun h => ?_, fun h => ?_⟩ <;>
            (rw [hstep, handleSignal_effects_hostStarted fm cfg st f0 t0 h1 h2] at h
             cases hh : cfg.isHost with
             | true => rw [hh] at h; simp at h
             | false => rw [hh] at h; simp [isOfferSend, isAnswerSend] at h)
        | viewerReady =>
          constructor
          · intro h
            cases hh : cfg.isHost with
            | false =>
              rw [hstep, handleSignal_effects_viewerReady fm cfg st f0 t0 h1 h2, hh] at h
              simp at h
            | true => exact ⟨rfl, ⟨SignalType.viewerReady, f0, t0⟩, rfl, rfl, h1, hdel⟩
          · intro h
            rw [hstep, handleSignal_effects_viewerReady fm cfg st f0 t0 h1 h2] at h
            exfalso
            cases hh : cfg.isHost with
            | false => rw [hh] at h; simp at h
            | true =>
              rw [hh, if_pos rfl, List.any_append,
                roomSends_any_false cfg.peerId st.room f0 isAnswerSend
                  (fun a pl t0' => rfl),
                sendOffer_effects_any cfg.peerId st.hook f0 isAnswerSend
                  (fun sdp => rfl)] at h
              simp at h
        | offer sdp =>
          constructor
          · intro h
            rw [hstep, handleSignal_effects_offer fm cfg st f0 t0 sdp h1 h2] at h
            exfalso
            cases hh : cfg.isHost with
            | true => rw [hh] at h; simp at h
            | false => rw [hh] at h; simp [isOfferSend] at h
          · intro h
            cases hh : cfg.isHost with
            | true =>
              rw [hstep, handleSignal_effects_offer fm cfg st f0 t0 sdp h1 h2, hh] at h
              simp at h
            | false =>
              exact ⟨rfl, ⟨SignalType.offer sdp, f0, t0⟩, sdp, rfl, rfl, h1, hdel⟩
        | answer sdp =>
          refine ⟨fun h => ?_, fun h => ?_⟩ <;>
            (rw [hstep, handleSignal_effects_answer fm cfg st f0 t0 sdp h1 h2] at h
             simp at h)
        | iceCandidate cand =>
          refine ⟨fun h => ?_, fun h => ?_⟩ <;>
            (rw [hstep, handleSignal_effects_ice fm cfg st f0 t0 cand h1 h2] at h
             simp at h)
        | hostStopped =>
          refine ⟨fun h => ?_, fun h => ?_⟩ <;>
            (rw [hstep, handleSignal_effects_hostStopped fm cfg st f0 t0 h1 h2] at h
             cases hh : cfg.isHost with
             | true => rw [hh] at h; simp at h
             | false =>
               rw [hh, if_pos rfl] at h
               rw [closePcs_any_false fm st.hook.peerConnections _ (fun i => rfl)] at h
               simp at h)
        | control a pl =>
          refine ⟨fun h => ?_, fun h => ?_⟩ <;>
            (rw [hstep, handleSignal_effects_control fm cfg st f0 t0 a pl h1 h2] at h
             simp at h)
  | subscribed =>
    refine ⟨fun h => ?_, fun h => ?_⟩ <;>
      (unfold step at h
       cases hh : cfg.isHost with
       | true => rw [hh] at h; simp at h
       | false => rw [hh] at h; simp [isOfferSend, isAnswerSend] at h)
  | startShare stream =>
    refine ⟨fun h => ?_, fun h => ?_⟩ <;>
      (unfold step at h
       simp [isOfferSend, isAnswerSend] at h)
  | stopShare =>
    refine ⟨fun h => ?_, fun h => ?_⟩ <;>
      (rw [step_stopShare_effects] at h
       rw [stopSharing_any_false fm cfg.peerId st.hook _ (fun t => rfl) (fun i => rfl)
         rfl] at h
       simp at h)
  | fileUploaded url =>
    refine ⟨fun h => ?_, fun h => ?_⟩ <;>
      (rw [step_fileUploaded_any_false fm cfg st url _ (fun t => rfl) (fun i => rfl)
         rfl rfl] at h
       simp at h)
  | iceCandidateGenerated remotePeerId cand =>
    refine ⟨fun h => ?_, fun h => ?_⟩ <;>
      (unfold step at h
       simp [isOfferSend, isAnswerSend] at h)
  | hostVideoPlay =>
    refine ⟨fun h => ?_, fun h => ?_⟩ <;>
      (unfold step at h
       simp [isOfferSend, isAnswerSend] at h)
  | hostVideoPause =>
    refine ⟨fun h => ?_, fun h => ?_⟩ <;>
      (unfold step at h
       simp [isOfferSend, isAnswerSend] at h)
  | hostVideoSeeked t =>
    refine ⟨fun h => ?_, fun h => ?_⟩ <;>
      (unfold step at h
       simp [isOfferSend, isAnswerSend] at h)
  | syncTick =>
    refine ⟨fun h => ?_, fun h => ?_⟩ <;>
      (unfold step at h
       cases hv : st.room.localVideo with
       | none => simp only [hv] at h; simp at h
       | some v =>
         simp only [hv] at h
         cases hpz : v.paused with
         | false => rw [hpz] at h; simp [isOfferSend, isAnswerSend] at h
         | true => rw [hpz] at h; simp at h)
  | trackReceived =>
    refine ⟨fun h => ?_, fun h => ?_⟩ <;>
      (unfold step at h
       cases hh : cfg.isHost with
       | true => rw [hh] at h; simp at h
       | false => rw [hh] at h; simp at h)

/-- Witness for C6: the sharing host does publish an offer while handling
a delivered `viewer-ready`, and the theorem's conclusion holds there. -/
theorem c6_witness :
    cfgHost.isHost = true ∧ ∃ sig,
      Event.signalArrives vrSignal = Event.signalArrives sig ∧
      sig.type = SignalType.viewerReady ∧ sig.«from» ≠ cfgHost.peerId ∧
      (jsTruthyStr sig.«to» = false ∨ sig.«to» = some cfgHost.peerId) :=
  (c6_role_asymmetry noThrowFaults cfgHost sharingSys (Event.signalArrives vrSignal)).1
    (by decide)

theorem countViewerReady_append (l₁ l₂ : List Effect) :
    countViewerReady (l₁ ++ l₂) = countViewerReady l₁ + countViewerReady l₂ := by
  simp [countViewerReady, List.filter_append]

theorem countViewerReady_eq_zero_of_any {l : List Effect}
    (h : l.any isViewerReadySend = false) : countViewerReady l = 0 := by
  unfold countViewerReady
  rw [List.length_eq_zero, List.filter_eq_nil_iff]
  intro e he
  have := List.any_eq_false.mp h e he
  simpa using this

/-- C7 counterexample: within a single subscription — one `SUBSCRIBED`
status event, never re-subscribed — a viewer that then receives a
`host-started` broadcast emits the `viewer-ready` broadcast twice, not
once: once from the subscription callback and once from the
`host-started` handler. -/
theorem c7_counterexample :
    countViewerReady (run noThrowFaults cfgViewer initialSys
      [Event.subscribed, Event.signalArrives hostStartedSignal]).2 = 2 := by
  decide

/-- C7 (amended): the exact `viewer-ready` emission discipline.  A Host
never emits `viewer-ready` under any event; a Viewer emits exactly one
`viewer-ready` on a `SUBSCRIBED` subscription event and exactly one on
each delivered `host-started` signal; and those two are the only events
under which a `viewer-ready` is ever emitted. -/
theorem c7_amended (fm : FaultModel) (cfg : Config) (st : SysState) (e : Event) :
    (cfg.isHost = true → countViewerReady (step fm cfg st e).effects = 0) ∧
    (cfg.isHost = false →
      countViewerReady (step fm cfg st Event.subscribed).effects = 1) ∧
    (∀ sig, e = Event.signalArrives sig → sig.«from» ≠ cfg.peerId →
      (jsTruthyStr sig.«to» = false ∨ sig.«to» = some cfg.peerId) →
      sig.type = SignalType.hostStarted → cfg.isHost = false →
      countViewerReady (step fm cfg st e).effects = 1) ∧
    ((step fm cfg st e).effects.any isViewerReadySend = true →
      cfg.isHost = false ∧ (e = Event.subscribed ∨
        ∃ sig, e = Event.signalArrives sig ∧ sig.type = SignalType.hostStarted)) := by
  refine ⟨?_, ?_, ?_, ?_⟩
  · -- a Host never emits viewer-ready
    intro hh
    cases e with
    | signalArrives sig =>
      obtain ⟨ty, f0, t0⟩ := sig
      by_cases h1 : (⟨ty, f0, t0⟩ : Signal).«from» = cfg.peerId
      · rw [handleSignal_discarded fm cfg st _ (Or.inl h1)]
        rfl
      · by_cases h2 : jsTruthyStr (⟨ty, f0, t0⟩ : Signal).«to» = true ∧
            (⟨ty, f0, t0⟩ : Signal).«to» ≠ some cfg.peerId
        · rw [handleSignal_discarded fm cfg st _ (Or.inr h2)]
          rfl
        · have hstep : step fm cfg st (Event.signalArrives ⟨ty, f0, t0⟩) =
              handleSignalStep fm cfg st ⟨ty, f0, t0⟩ := rfl
          cases ty with
          | hostStarted =>
            rw [hstep, handleSignal_effects_hostStarted fm cfg st f0 t0 h1 h2, hh]
            rfl
          | viewerReady =>
            rw [hstep, handleSignal_effects_viewerReady fm cfg st f0 t0 h1 h2, hh,
              if_pos rfl, countViewerReady_append,
              countViewerReady_eq_zero_of_any
                (roomSends_any_false cfg.peerId st.room f0 isViewerReadySend
                  (fun a pl t0' => rfl)),
              countViewerReady_eq_zero_of_any
                (sendOffer_effects_any cfg.peerId st.hook f0 isViewerReadySend
                  (fun sdp => rfl))]
          | offer sdp =>
            rw [hstep, handleSignal_effects_offer fm cfg st f0 t0 sdp h1 h2, hh]
            rfl
          | answer sdp =>
            rw [hstep, handleSignal_effects_answer fm cfg st f0 t0 sdp h1 h2]
            rfl
          | iceCandidate cand =>
            rw [hstep, handleSignal_effects_ice fm cfg st f0 t0 cand h1 h2]
            rfl
          | hostStopped =>
            rw [hstep, handleSignal_effects_hostStopped fm cfg st f0 t0 h1 h2, hh]
            rfl
          | control a pl =>
            rw [hstep, handleSignal_effects_control fm cfg st f0 t0 a pl h1 h2]
            rfl
    | subscribed =>
      unfold step
      rw [hh]
      rfl
    | startShare stream => rfl
    | stopShare =>
      rw [step_stopShare_effects]
      exact countViewerReady_eq_zero_of_any
        (stopSharing_any_false fm cfg.peerId st.hook isViewerReadySend
          (fun t => rfl) (fun i => rfl) rfl)
    | fileUploaded url =>
      exact countViewerReady_eq_zero_of_any
        (step_fileUploaded_any_false fm cfg st url isViewerReadySend
          (fun t => rfl) (fun i => rfl) rfl rfl)
    | iceCandidateGenerated remotePeerId cand => rfl
    | hostVideoPlay => rfl
    | hostVideoPause => rfl
    | hostVideoSeeked t => rfl
    | syncTick =>
      unfold step
      cases hv : st.room.localVideo with
      | none => rfl
      | some v =>
        cases hpz : v.paused <;>
          simp [hpz, countViewerReady, isViewerReadySend]
    | trackReceived =>
      unfold step
      rw [hh]
      rfl
  · -- a Viewer emits exactly one viewer-ready per SUBSCRIBED event
    intro hh
    unfold step
    rw [hh]
    rfl
  · -- a Viewer emits exactly one viewer-ready per delivered host-started
    intro sig he h1 hto hty hh
    subst he
    obtain ⟨ty, f0, t0⟩ := sig
    have hty' : ty = SignalType.hostStarted := hty
    subst hty'
    have hstep : step fm cfg st (Event.signalArrives ⟨SignalType.hostStarted, f0, t0⟩) =
        handleSignalStep fm cfg st ⟨SignalType.hostStarted, f0, t0⟩ := rfl
    rw [hstep, handleSignal_effects_hostStarted fm cfg st f0 t0 h1
      (not_addressed_elsewhere hto), hh]
    rfl
  · -- viewer-ready is emitted only on SUBSCRIBED or delivered host-started
    intro h
    cases e with
    | signalArrives sig =>
      obtain ⟨ty, f0, t0⟩ := sig
      by_cases h1 : (⟨ty, f0, t0⟩ : Signal).«from» = cfg.peerId
      · rw [handleSignal_discarded fm cfg st _ (Or.inl h1)] at h
        simp at h
      · by_cases h2 : jsTruthyStr (⟨ty, f0, t0⟩ : Signal).«to» = true ∧
            (⟨ty, f0, t0⟩ : Signal).«to» ≠ some cfg.peerId
        · rw [handleSignal_discarded fm cfg st _ (Or.inr h2)] at h
          simp at h
        · have hstep : step fm cfg st (Event.signalArrives ⟨ty, f0, t0⟩) =
              handleSignalStep fm cfg st ⟨ty, f0, t0⟩ := rfl
          cases ty with
          | hostStarted =>
            cases hh : cfg.isHost with
            | true =>
              rw [hstep, handleSignal_effects_hostStarted fm cfg st f0 t0 h1 h2,
                hh] at h
              simp at h
            | false =>
              exact ⟨rfl, Or.inr ⟨⟨SignalType.hostStarted, f0, t0⟩, rfl, rfl⟩⟩
          | viewerReady =>
            exfalso
            rw [hstep, handleSignal_effects_viewerReady fm cfg st f0 t0 h1 h2] at h
            cases hh : cfg.isHost with
            | false => rw [hh] at h; simp at h
            | true =>
              rw [hh, if_pos rfl, List.any_append,
                roomSends_any_false cfg.peerId st.room f0 isViewerReadySend
                  (fun a pl t0' => rfl),
                sendOffer_effects_any cfg.peerId st.hook f0 isViewerReadySend
                  (fun sdp => rfl)] at h
              simp at h
          | offer sdp =>
            exfalso
            rw [hstep, handleSignal_effects_offer fm cfg st f0 t0 sdp h1 h2] at h
            cases hh : cfg.isHost with
            | true => rw [hh] at h; simp at h
            | false => rw [hh] at h; simp [isViewerReadySend] at h
          | answer sdp =>
            rw [hstep, handleSignal_effects_answer fm cfg st f0 t0 sdp h1 h2] at h
            simp at h
          | iceCandidate cand =>
            rw [hstep, handleSignal_effects_ice fm cfg st f0 t0 cand h1 h2] at h
            simp at h
          | hostStopped =>
            exfalso
            rw [hstep, handleSignal_effects_hostStopped fm cfg st f0 t0 h1 h2] at h
            cases hh : cfg.isHost with
            | true => rw [hh] at h; simp at h
            | false =>
              rw [hh, if_pos rfl] at h
              rw [closePcs_any_false fm st.hook.peerConnections _ (fun i => rfl)] at h
              simp at h
          | control a pl =>
            rw [hstep, handleSignal_effects_control fm cfg st f0 t0 a pl h1 h2] at h
            simp at h
    | subscribed =>
      cases hh : cfg.isHost with
      | true =>
        unfold step at h
        rw [hh] at h
        simp at h
      | false => exact ⟨rfl, Or.inl rfl⟩
    | startShare stream =>
      unfold step at h
      simp [isViewerReadySend] at h
    | stopShare =>
      exfalso
      rw [step_stopShare_effects] at h
      rw [stopSharing_any_false fm cfg.peerId st.hook isViewerReadySend
        (fun t => rfl) (fun i => rfl) rfl] at h
      simp at h
    | fileUploaded url =>
      exfalso
      rw [step_fileUploaded_any_false fm cfg st url isViewerReadySend
        (fun t => rfl) (fun i => rfl) rfl rfl] at h
      simp at h
    | iceCandidateGenerated remotePeerId cand =>
      unfold step at h
      simp [isViewerReadySend] at h
    | hostVideoPlay =>
      unfold step at h
      simp [isViewerReadySend] at h
    | hostVideoPause =>
      unfold step at h
      simp [isViewerReadySend] at h
    | hostVideoSeeked t =>
      unfold step at h
      simp [isViewerReadySend] at h
    | syncTick =>
      unfold step at h
      cases hv : st.room.localVideo with
      | none => simp only [hv] at h; simp at h
      | some v =>
        simp only [hv] at h
        cases hpz : v.paused with
        | false => rw [hpz] at h; simp [isViewerReadySend] at h
        | true => rw [hpz] at h; simp at h
    | trackReceived =>
      unfold step at h
      cases hh : cfg.isHost with
      | true => rw [hh] at h; simp at h
      | false => rw [hh] at h; simp at h

/-- Witness for C7 (amended): a viewer receiving a delivered
`host-started` emits exactly one `viewer-ready`. -/
theorem c7_witness :
    countViewerReady (step noThrowFaults cfgViewer initialSys
      (Event.signalArrives hostStartedSignal)).effects = 1 :=
  (c7_amended noThrowFaults cfgViewer initialSys
      (Event.signalArrives hostStartedSignal)).2.2.1 hostStartedSignal rfl
    (by decide) (Or.inl rfl) rfl rfl
